import Mathlib

/-!
Verification of the movie ETL pipeline (`src/etl_script.py`): a shallow
embedding of the row transformer (`ETL.__transform_row`), the writer
directory builder (`ETL.load_writers_names`), the run loop (`ETL.load`)
and the bulk loader (`ESLoader.__get_es_build_query` / `ESLoader.load_to_es`),
together with theorems settling the specification claims about them.
-/

namespace Etl

/-- The sentinel unknown-marker used throughout the source data. -/
def NA : String := "N/A"

/-- A writer reference as it appears in a row's `writers` JSON field: an
object carrying just an `id`.  The embedding takes this field already
JSON-decoded into its list of references. -/
structure WriterRef where
  id : String
deriving DecidableEq

/-- A row of the `writers` table (`SELECT DISTINCT id, name FROM writers`). -/
structure Writer where
  id : String
  name : String
deriving DecidableEq

/-- One element of the output `actors` list: `{'id': _id, 'name': name}`. -/
structure Actor where
  id : String
  name : String
deriving DecidableEq

/-- The exceptions the transform can raise: `writers[writer_id]` raises
`KeyError` when the id is absent from the directory, and `float(...)`
raises `ValueError` on a non-numeric non-sentinel string. -/
inductive PyError where
  | keyError : String → PyError
  | valueError : String → PyError
deriving DecidableEq

/-- The value of a Python float parsed from a plain decimal numeral,
kept exactly: the denoted number is `num / 10 ^ shift`.  IEEE-754
rounding is not modelled; the rating strings of this dataset denote
exactly representable values. -/
structure FloatVal where
  num : Int
  shift : Nat
deriving DecidableEq

/-- The rational number a `FloatVal` denotes. -/
def FloatVal.toRat (v : FloatVal) : ℚ := (v.num : ℚ) / 10 ^ v.shift

/-- Python `str.split` on a one-character separator, over a character list.
Never returns `[]`; splitting the empty string yields `[[]]`. -/
def splitOnCh (c : Char) : List Char → List (List Char)
  | [] => [[]]
  | x :: xs =>
    if x = c then [] :: splitOnCh c xs
    else
      match splitOnCh c xs with
      | [] => [[x]]
      | p :: ps => (x :: p) :: ps

/-- Python `s.split(',')`. -/
def splitComma (s : String) : List String :=
  (splitOnCh ',' s.data).map fun l => String.mk l

/-- Python `s.replace(' ', '')`: removes every space character. -/
def removeSpaces (s : String) : String :=
  String.mk (s.data.filter fun ch => ch ≠ ' ')

def allDigits (l : List Char) : Bool := l.all fun ch => ch.isDigit

def natOfDigits (l : List Char) : Nat :=
  l.foldl (fun a ch => a * 10 + (ch.toNat - 48)) 0

/-- Python `float(s)` on plain optional-sign decimal numerals (`"8"`,
`"8.5"`, `"8."`, `".5"`, `"-7.25"`); any other string fails, modelling
`ValueError`.  Exponent, infinity and padded forms are outside the model;
the ratings this pipeline reads use the plain decimal form. -/
def parseFloat (s : String) : Option FloatVal :=
  let (neg, body) :=
    match s.data with
    | '-' :: r => (true, r)
    | '+' :: r => (false, r)
    | r => (false, r)
  match splitOnCh '.' body with
  | [ip] =>
    if ip ≠ [] ∧ allDigits ip then
      some ⟨(if neg then -1 else 1) * (natOfDigits ip : Int), 0⟩
    else none
  | [ip, fp] =>
    if (ip ≠ [] ∨ fp ≠ []) ∧ allDigits ip ∧ allDigits fp then
      some ⟨(if neg then -1 else 1) *
        ((natOfDigits ip * 10 ^ fp.length + natOfDigits fp : Nat) : Int), fp.length⟩
    else none
  | _ => none

/-- Python dict lookup `d[k]` for a dict built by successive insertions in
list order: the last insertion for a key wins; `none` models `KeyError`. -/
def dictGet : List (String × Writer) → String → Option Writer
  | [], _ => none
  | (k, v) :: rest, key =>
    match dictGet rest key with
    | some w => some w
    | none => if k = key then some v else none

/-- `ETL.load_writers_names`: one dict entry per writer row, keyed by id. -/
def load_writers_names (rows : List Writer) : List (String × Writer) :=
  rows.map fun w => (w.id, w)

/-- The writer-resolution loop of `ETL.__transform_row`: walks the row's
reference list, raising `KeyError` on an id absent from the directory,
appending the directory entry on the first occurrence of an id whose
name is not the sentinel, and tracking appended ids in `seen`. -/
def resolveWriters (wd : List (String × Writer)) :
    List WriterRef → List String → Except PyError (List Writer)
  | [], _ => .ok []
  | r :: rest, seen =>
    match dictGet wd r.id with
    | none => .error (.keyError r.id)
    | some w =>
      if w.name ≠ NA ∧ r.id ∉ seen then
        match resolveWriters wd rest (r.id :: seen) with
        | .ok l => .ok (w :: l)
        | .error e => .error e
      else resolveWriters wd rest seen

/-- One row of the extraction query: the joined movie row.  The `writers`
field is its JSON value already decoded into the list of id references;
`actors_ids` and `actors_names` model the `NULL`able aggregated strings. -/
structure SourceRow where
  id : String
  genre : String
  director : String
  title : String
  plot : String
  imdb_rating : String
  actors_ids : Option String
  actors_names : Option String
  writers : List WriterRef
deriving DecidableEq

/-- The transformed search document. -/
structure MovieDocument where
  id : String
  genre : List String
  writers : List Writer
  actors : List Actor
  actors_names : List String
  writers_names : List String
  imdb_rating : Option FloatVal
  title : String
  director : Option (List String)
  description : Option String
deriving DecidableEq

def neNA (s : String) : Bool := s != NA

/-- The actor pairing of `ETL.__transform_row`: when both aggregated
strings are present, `zip` the comma-splits (silently truncating to the
shorter) and keep the non-sentinel-name pairs; otherwise both outputs
are empty. -/
def actorsOf (row : SourceRow) : List Actor × List String :=
  match row.actors_ids, row.actors_names with
  | some ids, some names =>
    (((splitComma ids).zip (splitComma names)).filterMap fun p =>
        if neNA p.2 then some ⟨p.1, p.2⟩ else none,
     (splitComma names).filter neNA)
  | _, _ => ([], [])

/-- `float(row['imdb_rating']) if row['imdb_rating'] != 'N/A' else None`. -/
def ratingOf (s : String) : Except PyError (Option FloatVal) :=
  if s = NA then .ok none
  else
    match parseFloat s with
    | some v => .ok (some v)
    | none => .error (.valueError s)

/-- The document dict literal returned by `ETL.__transform_row`. -/
def mkDoc (row : SourceRow) (movie_writers : List Writer)
    (rating : Option FloatVal) : MovieDocument :=
  { id := row.id
    genre := splitComma (removeSpaces row.genre)
    writers := movie_writers
    actors := (actorsOf row).1
    actors_names := (actorsOf row).2
    writers_names := movie_writers.map Writer.name
    imdb_rating := rating
    title := row.title
    director :=
      if row.director ≠ NA then some ((splitComma row.director).map String.trim)
      else none
    description := if row.plot ≠ NA then some row.plot else none }

/-- `ETL.__transform_row`, with Python exceptions made explicit as `Except`. -/
def transform_row (row : SourceRow) (wd : List (String × Writer)) :
    Except PyError MovieDocument :=
  match resolveWriters wd row.writers [] with
  | .error e => .error e
  | .ok movie_writers =>
    match ratingOf row.imdb_rating with
    | .error e => .error e
    | .ok rating => .ok (mkDoc row movie_writers rating)

/-- JSON string escaping as `json.dumps` performs it for the characters that
occur in this data (quote, backslash, newline); other control characters
are outside the model. -/
def jsonEscape (s : String) : String :=
  String.join (s.data.map fun ch =>
    if ch = '"' then "\\\""
    else if ch = '\\' then "\\\\"
    else if ch = '\n' then "\\n"
    else String.mk [ch])

def jsonStr (s : String) : String := "\"" ++ jsonEscape s ++ "\""

def jsonArr (elts : List String) : String := "[" ++ ", ".intercalate elts ++ "]"

/-- `repr` of a Python float holding an exact decimal value: integer part,
a dot, and the fraction digits with trailing zeros removed (at least one
digit, so `8.0` renders as `"8.0"`). -/
def renderFloat (v : FloatVal) : String :=
  let sign := if v.num < 0 then "-" else ""
  let mag := v.num.natAbs
  let fdigits := (toString (mag % 10 ^ v.shift)).data
  let fdigits := List.replicate (v.shift - fdigits.length) '0' ++ fdigits
  let fdigits := (fdigits.reverse.dropWhile fun ch => ch = '0').reverse
  let fdigits := if fdigits = [] then ['0'] else fdigits
  sign ++ toString (mag / 10 ^ v.shift) ++ "." ++ String.mk fdigits

def dumpNullable (f : α → String) : Option α → String
  | none => "null"
  | some x => f x

/-- `json.dumps` of the document dict, keys in insertion order. -/
def dumpDoc (d : MovieDocument) : String :=
  "\x7b\"id\": " ++ jsonStr d.id
  ++ ", \"genre\": " ++ jsonArr (d.genre.map jsonStr)
  ++ ", \"writers\": " ++ jsonArr (d.writers.map fun w =>
      "\x7b\"id\": " ++ jsonStr w.id ++ ", \"name\": " ++ jsonStr w.name ++ "\x7d")
  ++ ", \"actors\": " ++ jsonArr (d.actors.map fun a =>
      "\x7b\"id\": " ++ jsonStr a.id ++ ", \"name\": " ++ jsonStr a.name ++ "\x7d")
  ++ ", \"actors_names\": " ++ jsonArr (d.actors_names.map jsonStr)
  ++ ", \"writers_names\": " ++ jsonArr (d.writers_names.map jsonStr)
  ++ ", \"imdb_rating\": " ++ dumpNullable renderFloat d.imdb_rating
  ++ ", \"title\": " ++ jsonStr d.title
  ++ ", \"director\": " ++ dumpNullable (fun l => jsonArr (l.map jsonStr)) d.director
  ++ ", \"description\": " ++ dumpNullable jsonStr d.description
  ++ "\x7d"

/-- The action/metadata line
`json.dumps({'index': {'_index': idx_name, '_id': row['id']}})`. -/
def actionLine (idx_name doc_id : String) : String :=
  "\x7b\"index\": \x7b\"_index\": " ++ jsonStr idx_name
  ++ ", \"_id\": " ++ jsonStr doc_id ++ "\x7d\x7d"

/-- `ESLoader.__get_es_build_query`: two lines per document, in order —
the action line, then the serialized document body. -/
def get_es_build_query : List MovieDocument → String → List String
  | [], _ => []
  | row :: rows, idx_name =>
    actionLine idx_name row.id :: dumpDoc row :: get_es_build_query rows idx_name

/-- The `str_query` of `ESLoader.load_to_es`:
`'\n'.join(prepared_query) + '\n'`, submitted as one request body. -/
def bulk_payload (records : List MovieDocument) (idx_name : String) : String :=
  String.intercalate "\n" (get_es_build_query records idx_name) ++ "\n"

/-- One per-item result of the bulk response body. -/
structure BulkItem where
  id : String
  isError : Bool
  reason : String
deriving DecidableEq

/-- Spec §4.3: a recorded per-document load failure. -/
structure DocumentLoadFailure where
  id : String
  reason : String
deriving DecidableEq

/-- Spec §4.3: `LoadReport = {attempted, succeeded, failures}`. -/
structure LoadReport where
  attempted : Nat
  succeeded : Nat
  failures : List DocumentLoadFailure
deriving DecidableEq

/-- `ESLoader.load_to_es`: builds the payload, posts it once, prints the
decoded response and returns `None` — the per-item results are never
walked and no report is built.  The result models the pair (submitted
payload, Python return value). -/
def load_to_es (records : List MovieDocument) (idx_name : String)
    (_response : List BulkItem) : String × Option LoadReport :=
  (bulk_payload records idx_name, none)

/-- The row loop of `ETL.load`: transforms every row in order; an uncaught
exception from a row propagates and aborts the loop. -/
def transform_all (wd : List (String × Writer)) :
    List SourceRow → Except PyError (List MovieDocument)
  | [] => .ok []
  | r :: rest =>
    match transform_row r wd with
    | .error e => .error e
    | .ok d =>
      match transform_all wd rest with
      | .ok ds => .ok (d :: ds)
      | .error e => .error e

/-- `ETL.load`: builds the writer directory, transforms every row, then
performs the single bulk call; a row exception aborts the run before
anything is submitted. -/
def ETL.load (rows : List SourceRow) (wrows : List Writer) (idx_name : String)
    (response : List BulkItem) : Except PyError (String × Option LoadReport) :=
  match transform_all (load_writers_names wrows) rows with
  | .ok records => .ok (load_to_es records idx_name response)
  | .error e => .error e

instance {ε α : Type} [DecidableEq ε] [DecidableEq α] : DecidableEq (Except ε α) :=
  fun a b =>
    match a, b with
    | .ok x, .ok y =>
      if h : x = y then .isTrue (by rw [h])
      else .isFalse (by intro hc; cases hc; exact h rfl)
    | .ok _, .error _ => .isFalse (by intro hc; cases hc)
    | .error _, .ok _ => .isFalse (by intro hc; cases hc)
    | .error x, .error y =>
      if h : x = y then .isTrue (by rw [h])
      else .isFalse (by intro hc; cases hc; exact h rfl)

/-- The predicate the transform's writer filter effectively applies to an id:
it resolves in the directory and the resolved name is not the sentinel. -/
def keepWriter (wd : List (String × Writer)) (i : String) : Bool :=
  match dictGet wd i with
  | some w => w.name != NA
  | none => false

/-- First-occurrence deduplication that skips ids already in `seen`. -/
def dedupFirstExcl : List String → List String → List String
  | _, [] => []
  | seen, x :: xs =>
    if x ∈ seen then dedupFirstExcl seen xs
    else x :: dedupFirstExcl (x :: seen) xs

/-- First-occurrence deduplication of a list of ids. -/
def dedupFirst (l : List String) : List String := dedupFirstExcl [] l

/-- Whether the two aggregated actor strings, when both present, split on
commas into lists of equal length (vacuously true when either is absent). -/
def actorsAlignedB (row : SourceRow) : Bool :=
  match row.actors_ids, row.actors_names with
  | some ids, some names => (splitComma ids).length == (splitComma names).length
  | _, _ => true

def c1row_bad : SourceRow :=
  { id := "m1", genre := "Drama", director := "N/A", title := "b",
    plot := "N/A", imdb_rating := "7.0", actors_ids := none,
    actors_names := none, writers := [⟨"w9"⟩] }

def c1row_good : SourceRow :=
  { id := "m2", genre := "Drama", director := "N/A", title := "g",
    plot := "N/A", imdb_rating := "6.0", actors_ids := none,
    actors_names := none, writers := [⟨"w1"⟩] }

def c1wrows : List Writer := [⟨"w1", "Ann"⟩]

def c2row : SourceRow :=
  { id := "m2", genre := "g", director := "N/A", title := "t",
    plot := "N/A", imdb_rating := "N/A", actors_ids := none,
    actors_names := none, writers := [⟨"w1"⟩, ⟨"w2"⟩, ⟨"w1"⟩, ⟨"w3"⟩] }

def c2wrows : List Writer := [⟨"w1", "A"⟩, ⟨"w2", "N/A"⟩, ⟨"w3", "B"⟩]

def c2doc : MovieDocument :=
  { id := "m2", genre := ["g"], writers := [⟨"w1", "A"⟩, ⟨"w3", "B"⟩],
    actors := [], actors_names := [], writers_names := ["A", "B"],
    imdb_rating := none, title := "t", director := none, description := none }

def c3row_cex : SourceRow :=
  { id := "m3", genre := "g", director := "N/A", title := "t",
    plot := "N/A", imdb_rating := "N/A", actors_ids := some "a1",
    actors_names := some "Alice,Bob", writers := [] }

def c3row : SourceRow :=
  { id := "m3", genre := "g", director := "N/A", title := "t",
    plot := "N/A", imdb_rating := "N/A", actors_ids := some "a1,a2",
    actors_names := some "Alice,N/A", writers := [] }

def c3doc : MovieDocument :=
  { id := "m3", genre := ["g"], writers := [], actors := [⟨"a1", "Alice"⟩],
    actors_names := ["Alice"], writers_names := [], imdb_rating := none,
    title := "t", director := none, description := none }

def c4row_cex : SourceRow :=
  { id := "m4", genre := "g", director := "N/A", title := "t",
    plot := "N/A", imdb_rating := "N/A", actors_ids := some "a1,a2,a3",
    actors_names := some "Alice", writers := [] }

def c4doc : MovieDocument :=
  { id := "m4", genre := ["g"], writers := [], actors := [⟨"a1", "Alice"⟩],
    actors_names := ["Alice"], writers_names := [], imdb_rating := none,
    title := "t", director := none, description := none }

def c5doc : MovieDocument :=
  { id := "tt1", genre := ["Drama"], writers := [], actors := [],
    actors_names := [], writers_names := [], imdb_rating := none,
    title := "T", director := none, description := none }

def c7row_absent : SourceRow :=
  { id := "m7a", genre := "g", director := "N/A", title := "t",
    plot := "N/A", imdb_rating := "N/A", actors_ids := none,
    actors_names := some "Alice", writers := [] }

def c7doc_absent : MovieDocument :=
  { id := "m7a", genre := ["g"], writers := [], actors := [],
    actors_names := [], writers_names := [], imdb_rating := none,
    title := "t", director := none, description := none }

def c7row_pair : SourceRow :=
  { id := "m7b", genre := "g", director := "N/A", title := "t",
    plot := "N/A", imdb_rating := "N/A", actors_ids := some "a1,a2",
    actors_names := some "Alice,N/A", writers := [] }

def c7doc_pair : MovieDocument :=
  { id := "m7b", genre := ["g"], writers := [], actors := [⟨"a1", "Alice"⟩],
    actors_names := ["Alice"], writers_names := [], imdb_rating := none,
    title := "t", director := none, description := none }

def c9row : SourceRow :=
  { id := "m9", genre := "g", director := "N/A", title := "t",
    plot := "N/A", imdb_rating := "7.25", actors_ids := none,
    actors_names := none, writers := [] }

def c9doc : MovieDocument :=
  { id := "m9", genre := ["g"], writers := [], actors := [],
    actors_names := [], writers_names := [], imdb_rating := some ⟨725, 2⟩,
    title := "t", director := none, description := none }

def c9row_na : SourceRow :=
  { id := "m9n", genre := "g", director := "N/A", title := "t",
    plot := "N/A", imdb_rating := "N/A", actors_ids := none,
    actors_names := none, writers := [] }

def c9doc_na : MovieDocument :=
  { id := "m9n", genre := ["g"], writers := [], actors := [],
    actors_names := [], writers_names := [], imdb_rating := none,
    title := "t", director := none, description := none }

def c10row : SourceRow :=
  { id := "m10", genre := "", director := "N/A", title := "t",
    plot := "N/A", imdb_rating := "N/A", actors_ids := none,
    actors_names := none, writers := [] }

def c10doc : MovieDocument :=
  { id := "m10", genre := [""], writers := [], actors := [],
    actors_names := [], writers_names := [], imdb_rating := none,
    title := "t", director := none, description := none }

/-- Inversion of a successful transform: the writer resolution and the rating
coercion both succeeded and the document is the dict literal built from them. -/
theorem transform_row_ok_elim {row : SourceRow} {wd : List (String × Writer)}
    {d : MovieDocument} (h : transform_row row wd = .ok d) :
    ∃ mw rat, resolveWriters wd row.writers [] = .ok mw ∧
      ratingOf row.imdb_rating = .ok rat ∧ d = mkDoc row mw rat := by
  unfold transform_row at h
  split at h
  next e heq => exact absurd h (by simp)
  next mw heq =>
    split at h
    next e heq2 => exact absurd h (by simp)
    next rat heq2 =>
      cases h
      exact ⟨mw, rat, heq, heq2, rfl⟩

/-- Every entry of the directory built by `load_writers_names` is keyed by
its own id. -/
theorem dictGet_load_writers_names : ∀ {rows : List Writer} {i : String}
    {w : Writer}, dictGet (load_writers_names rows) i = some w → w.id = i := by
  intro rows
  induction rows with
  | nil => intro i w h; simp [load_writers_names, dictGet] at h
  | cons r rest ih =>
    intro i w h
    have hr : load_writers_names (r :: rest) = (r.id, r) :: load_writers_names rest := rfl
    rw [hr] at h
    simp only [dictGet] at h
    cases hrec : dictGet (load_writers_names rest) i with
    | some w2 =>
      simp only [hrec] at h
      cases h
      exact ih hrec
    | none =>
      simp only [hrec] at h
      by_cases hk : r.id = i
      · rw [if_pos hk] at h; cases h; exact hk
      · rw [if_neg hk] at h; cases h

/-- The ids of the writers kept by the resolution loop are exactly the
first-occurrence deduplication (relative to `seen`) of the non-sentinel
resolvable reference ids, in reference-list order. -/
theorem resolveWriters_ok_map_id {wd : List (String × Writer)}
    (hwd : ∀ i w, dictGet wd i = some w → w.id = i) :
    ∀ (refs : List WriterRef) (seen : List String) (l : List Writer),
      resolveWriters wd refs seen = .ok l →
      l.map Writer.id =
        dedupFirstExcl seen ((refs.map WriterRef.id).filter (keepWriter wd)) := by
  intro refs
  induction refs with
  | nil =>
    intro seen l h
    simp only [resolveWriters] at h
    cases h
    rfl
  | cons r rest ih =>
    intro seen l h
    simp only [resolveWriters] at h
    cases hg : dictGet wd r.id with
    | none => simp [hg] at h
    | some w =>
      simp only [hg] at h
      have hid : w.id = r.id := hwd _ _ hg
      by_cases hc : w.name ≠ NA ∧ r.id ∉ seen
      · rw [if_pos hc] at h
        cases hrec : resolveWriters wd rest (r.id :: seen) with
        | error e => simp [hrec] at h
        | ok l2 =>
          simp only [hrec] at h
          cases h
          have hkeep : keepWriter wd r.id = true := by
            simp only [keepWriter, hg, bne_iff_ne]
            exact hc.1
          simp only [List.map_cons, List.filter_cons, hkeep, if_true]
          rw [dedupFirstExcl, if_neg hc.2, hid]
          exact congrArg (List.cons r.id) (ih (r.id :: seen) l2 hrec)
      · rw [if_neg hc] at h
        by_cases hn : w.name = NA
        · have hkeep : keepWriter wd r.id = false := by
            simp [keepWriter, hg, hn]
          simp only [List.map_cons, List.filter_cons, hkeep]
          simpa using ih seen l h
        · have hmem : r.id ∈ seen := by
            by_contra hnm
            exact hc ⟨hn, hnm⟩
          have hkeep : keepWriter wd r.id = true := by
            simp only [keepWriter, hg, bne_iff_ne]
            exact hn
          simp only [List.map_cons, List.filter_cons, hkeep, if_true]
          rw [dedupFirstExcl, if_pos hmem]
          exact ih seen l h

/-- First-occurrence deduplication yields a duplicate-free list disjoint
from the excluded set. -/
theorem dedupFirstExcl_nodup :
    ∀ (l seen : List String),
      (dedupFirstExcl seen l).Nodup ∧ ∀ x ∈ dedupFirstExcl seen l, x ∉ seen := by
  intro l
  induction l with
  | nil =>
    intro seen
    exact ⟨List.nodup_nil, by intro x hx; simp [dedupFirstExcl] at hx⟩
  | cons x xs ih =>
    intro seen
    by_cases hx : x ∈ seen
    · rw [dedupFirstExcl, if_pos hx]
      exact ih seen
    · rw [dedupFirstExcl, if_neg hx]
      obtain ⟨hnd, hdisj⟩ := ih (x :: seen)
      refine ⟨List.nodup_cons.mpr ⟨?_, hnd⟩, ?_⟩
      · intro hmem
        exact (hdisj x hmem) (List.mem_cons_self x seen)
      · intro y hy
        rcases List.mem_cons.mp hy with h1 | h2
        · subst h1; exact hx
        · intro hys
          exact (hdisj y h2) (List.mem_cons_of_mem x hys)

/-- Every writer kept by the resolution loop has a non-sentinel name and is
the directory entry for its own id. -/
theorem resolveWriters_ok_mem {wd : List (String × Writer)}
    (hwd : ∀ i w, dictGet wd i = some w → w.id = i) :
    ∀ (refs : List WriterRef) (seen : List String) (l : List Writer),
      resolveWriters wd refs seen = .ok l →
      ∀ w ∈ l, w.name ≠ NA ∧ dictGet wd w.id = some w := by
  intro refs
  induction refs with
  | nil =>
    intro seen l h
    simp only [resolveWriters] at h
    cases h
    intro w hw
    simp at hw
  | cons r rest ih =>
    intro seen l h
    simp only [resolveWriters] at h
    cases hg : dictGet wd r.id with
    | none => simp [hg] at h
    | some w0 =>
      simp only [hg] at h
      by_cases hc : w0.name ≠ NA ∧ r.id ∉ seen
      · rw [if_pos hc] at h
        cases hrec : resolveWriters wd rest (r.id :: seen) with
        | error e => simp [hrec] at h
        | ok l2 =>
          simp only [hrec] at h
          cases h
          intro w hw
          rcases List.mem_cons.mp hw with h1 | h2
          · subst h1
            refine ⟨hc.1, ?_⟩
            rw [hwd _ _ hg]
            exact hg
          · exact ih _ _ hrec w h2
      · rw [if_neg hc] at h
        exact ih _ _ h

/-- Claim C2: on any transformed row the output writers list has no two
entries with the same id, no sentinel-named entry, lists the kept writers in
first-occurrence order of the row's reference list, and `writers_names` is
the parallel list of their names. -/
theorem writers_dedup_and_order (row : SourceRow) (wrows : List Writer)
    (d : MovieDocument)
    (h : transform_row row (load_writers_names wrows) = .ok d) :
    (d.writers.map Writer.id).Nodup ∧
    (∀ w ∈ d.writers, w.name ≠ NA) ∧
    d.writers.map Writer.id =
      dedupFirst ((row.writers.map WriterRef.id).filter
        (keepWriter (load_writers_names wrows))) ∧
    d.writers_names = d.writers.map Writer.name := by
  obtain ⟨mw, rat, h1, h2, hd⟩ := transform_row_ok_elim h
  subst hd
  have hwd : ∀ i w, dictGet (load_writers_names wrows) i = some w → w.id = i :=
    fun i w hw => dictGet_load_writers_names hw
  have hmap := resolveWriters_ok_map_id hwd row.writers [] mw h1
  refine ⟨?_, ?_, ?_, ?_⟩
  · show (mw.map Writer.id).Nodup
    rw [hmap]
    exact (dedupFirstExcl_nodup _ _).1
  · show ∀ w ∈ mw, w.name ≠ NA
    intro w hw
    exact (resolveWriters_ok_mem hwd row.writers [] mw h1 w hw).1
  · exact hmap
  · rfl

/-- Concrete instance of claim C2's theorem: a reference list with a repeated
id and a sentinel-named writer keeps `w1` and `w3` once each, in order. -/
theorem writers_dedup_and_order_witness :
    (c2doc.writers.map Writer.id).Nodup ∧
    c2doc.writers.map Writer.id =
      dedupFirst ((c2row.writers.map WriterRef.id).filter
        (keepWriter (load_writers_names c2wrows))) ∧
    c2doc.writers_names = c2doc.writers.map Writer.name ∧
    (⟨"w1", "A"⟩ : Writer).name ≠ NA :=
  have t := writers_dedup_and_order c2row c2wrows c2doc (by decide)
  ⟨t.1, t.2.2.1, t.2.2.2, t.2.1 ⟨"w1", "A"⟩ (by decide)⟩

/-- Mapping the kept actor pairs back to their names recovers the sentinel
filter of the names list, provided the two zipped lists have equal length. -/
theorem map_name_zip_filterMap :
    ∀ (l1 l2 : List String), l1.length = l2.length →
      (((l1.zip l2).filterMap fun p =>
        if neNA p.2 then some (⟨p.1, p.2⟩ : Actor) else none).map Actor.name)
      = l2.filter neNA := by
  intro l1
  induction l1 with
  | nil =>
    intro l2 h
    have h2 : l2 = [] := by
      cases l2 with
      | nil => rfl
      | cons b t => simp at h
    subst h2
    rfl
  | cons a t1 ih =>
    intro l2 h
    cases l2 with
    | nil => simp at h
    | cons b t2 =>
      have ht : t1.length = t2.length := by simpa using h
      cases hb : neNA b with
      | true =>
        simp [List.zip_cons_cons, List.filterMap_cons, List.filter_cons, hb, ih t2 ht]
      | false =>
        simp [List.zip_cons_cons, List.filterMap_cons, List.filter_cons, hb, ih t2 ht]

/-- Claim C3 (amended): on rows whose two aggregated actor strings split to
equal-length lists (or are absent), the output `actors_names` is exactly the
name column of `actors`, so the two lists are index-aligned and equally long. -/
theorem actors_names_index_aligned (row : SourceRow)
    (wd : List (String × Writer)) (d : MovieDocument)
    (hwf : actorsAlignedB row = true) (h : transform_row row wd = .ok d) :
    d.actors_names = d.actors.map Actor.name ∧
    d.actors_names.length = d.actors.length := by
  obtain ⟨mw, rat, h1, h2, hd⟩ := transform_row_ok_elim h
  subst hd
  have key : (actorsOf row).2 = (actorsOf row).1.map Actor.name := by
    cases hi : row.actors_ids with
    | none => simp [actorsOf, hi]
    | some ids =>
      cases hn : row.actors_names with
      | none => simp [actorsOf, hi, hn]
      | some names =>
        have hlen : (splitComma ids).length = (splitComma names).length := by
          simp only [actorsAlignedB, hi, hn, beq_iff_eq] at hwf
          exact hwf
        simp only [actorsOf, hi, hn]
        exact (map_name_zip_filterMap _ _ hlen).symm
  refine ⟨key, ?_⟩
  show (actorsOf row).2.length = (actorsOf row).1.length
  rw [key, List.length_map]

/-- Concrete instance of claim C3's amended theorem on an aligned row with a
sentinel actor name. -/
theorem actors_names_index_aligned_witness :
    c3doc.actors_names = c3doc.actors.map Actor.name ∧
    c3doc.actors_names.length = c3doc.actors.length :=
  actors_names_index_aligned c3row [] c3doc (by decide) (by decide)

/-- Counterexample to claim C3 as stated: on the row whose actor ids split to
one element while the names split to two, the transform still produces a
document, but `actors` has one entry while `actors_names` has two, so the
lists are neither equally long nor index-aligned. -/
theorem actors_alignment_cex :
    (transform_row c3row_cex (load_writers_names [])).map
      (fun d => (d.actors.map Actor.name, d.actors_names)) =
    .ok (["Alice"], ["Alice", "Bob"]) := by decide

/-- Rebuilding a positionwise `filterMap` over a `zip` from independent
indexing into the two lists, when they have equal length. -/
theorem zip_filterMap_eq_range {α β γ : Type} :
    ∀ (l1 : List α) (l2 : List β) (g : α × β → Option γ),
      l1.length = l2.length →
      (l1.zip l2).filterMap g =
        (List.range l2.length).filterMap fun k =>
          (l1.get? k).bind fun a => (l2.get? k).bind fun b => g (a, b) := by
  intro l1
  induction l1 with
  | nil =>
    intro l2 g h
    have h2 : l2 = [] := by
      cases l2 with
      | nil => rfl
      | cons b t => simp at h
    subst h2
    rfl
  | cons a t1 ih =>
    intro l2 g h
    cases l2 with
    | nil => simp at h
    | cons b t2 =>
      have ht : t1.length = t2.length := by simpa using h
      rw [List.zip_cons_cons, List.filterMap_cons, List.length_cons,
        List.range_succ_eq_map, List.filterMap_cons, List.filterMap_map]
      have harm : ((fun k =>
          ((a :: t1).get? k).bind fun x => ((b :: t2).get? k).bind fun y => g (x, y))
            ∘ Nat.succ) =
          fun k => (t1.get? k).bind fun x => (t2.get? k).bind fun y => g (x, y) := by
        funext k
        simp [Function.comp, List.get?_cons_succ]
      simp only [List.get?_cons_zero, Option.bind_some]
      rw [harm, ← ih t2 g ht]
      rfl

/-- Claim C7: absent actor strings give empty `actors`/`actors_names`; on
equal-length splits every position with a non-sentinel name contributes
exactly its `{id, name}` pair to `actors`, in position order, and nothing
else appears. -/
theorem actors_pairing (row : SourceRow) (wd : List (String × Writer))
    (d : MovieDocument) (h : transform_row row wd = .ok d) :
    ((row.actors_ids = none ∨ row.actors_names = none) →
      d.actors = [] ∧ d.actors_names = []) ∧
    (∀ ids names, row.actors_ids = some ids → row.actors_names = some names →
      (splitComma ids).length = (splitComma names).length →
      d.actors = (List.range (splitComma names).length).filterMap fun k =>
        ((splitComma ids).get? k).bind fun i =>
          ((splitComma names).get? k).bind fun nm =>
            if neNA nm then some ⟨i, nm⟩ else none) := by
  obtain ⟨mw, rat, h1, h2, hd⟩ := transform_row_ok_elim h
  subst hd
  constructor
  · intro habs
    have : actorsOf row = ([], []) := by
      rcases habs with hi | hn
      · simp [actorsOf, hi]
      · cases hi : row.actors_ids with
        | none => simp [actorsOf, hi]
        | some ids => simp [actorsOf, hi, hn]
    constructor
    · show (actorsOf row).1 = []
      rw [this]
    · show (actorsOf row).2 = []
      rw [this]
  · intro ids names hi hn hlen
    show (actorsOf row).1 = _
    simp only [actorsOf, hi, hn]
    exact zip_filterMap_eq_range _ _ _ hlen

/-- Concrete instances of claim C7's theorem: an absent-ids row yields empty
actor lists, and an aligned row contributes exactly its non-sentinel pair. -/
theorem actors_pairing_witness :
    c7doc_absent.actors = [] ∧ c7doc_absent.actors_names = [] ∧
    c7doc_pair.actors =
      ((List.range (splitComma "Alice,N/A").length).filterMap fun k =>
        ((splitComma "a1,a2").get? k).bind fun i =>
          ((splitComma "Alice,N/A").get? k).bind fun nm =>
            if neNA nm then some ⟨i, nm⟩ else none) :=
  have tA := actors_pairing c7row_absent [] c7doc_absent (by decide)
  have tB := actors_pairing c7row_pair [] c7doc_pair (by decide)
  ⟨(tA.1 (Or.inl rfl)).1, (tA.1 (Or.inl rfl)).2,
    tB.2 "a1,a2" "Alice,N/A" rfl rfl (by decide)⟩

/-- Zipping two lists only ever consumes their common prefix length. -/
theorem zip_eq_zip_take_min {α β : Type} :
    ∀ (l1 : List α) (l2 : List β),
      l1.zip l2 = (l1.take (min l1.length l2.length)).zip
        (l2.take (min l1.length l2.length)) := by
  intro l1
  induction l1 with
  | nil => intro l2; simp
  | cons a t1 ih =>
    intro l2
    cases l2 with
    | nil => simp
    | cons b t2 =>
      have hm : min (a :: t1).length (b :: t2).length =
          min t1.length t2.length + 1 := by
        simp only [List.length_cons]
        omega
      rw [hm, List.take_succ_cons, List.take_succ_cons, List.zip_cons_cons,
        List.zip_cons_cons]
      exact congrArg (List.cons (a, b)) (ih t2)

/-- Claim C4 (amended): on a row where both aggregated actor strings are
present but split to lists of different lengths, the transform does not fail
the row — it silently truncates the longer list to the shorter length,
pairs by position, and keeps the non-sentinel-name pairs. -/
theorem actors_truncated_on_mismatch (row : SourceRow)
    (wd : List (String × Writer)) (d : MovieDocument) (ids names : String)
    (h : transform_row row wd = .ok d)
    (hi : row.actors_ids = some ids) (hn : row.actors_names = some names)
    (_hm : (splitComma ids).length ≠ (splitComma names).length) :
    d.actors =
      ((((splitComma ids).take
          (min (splitComma ids).length (splitComma names).length)).zip
        ((splitComma names).take
          (min (splitComma ids).length (splitComma names).length))).filterMap
        fun p => if neNA p.2 then some ⟨p.1, p.2⟩ else none) ∧
    d.actors.length ≤ min (splitComma ids).length (splitComma names).length := by
  obtain ⟨mw, rat, h1, h2, hd⟩ := transform_row_ok_elim h
  subst hd
  have hact : (actorsOf row).1 =
      ((splitComma ids).zip (splitComma names)).filterMap
        fun p => if neNA p.2 then some ⟨p.1, p.2⟩ else none := by
    simp [actorsOf, hi, hn]
  constructor
  · show (actorsOf row).1 = _
    rw [hact, ← zip_eq_zip_take_min]
  · show (actorsOf row).1.length ≤ _
    rw [hact]
    calc (((splitComma ids).zip (splitComma names)).filterMap
        fun p => if neNA p.2 then some (⟨p.1, p.2⟩ : Actor) else none).length
        ≤ ((splitComma ids).zip (splitComma names)).length :=
          List.length_filterMap_le _ _
      _ = min (splitComma ids).length (splitComma names).length := by
          rw [List.length_zip]

/-- Concrete instance of claim C4's amended theorem: three ids against one
name truncate to the single positional pair. -/
theorem actors_truncated_on_mismatch_witness :
    c4doc.actors =
      ((((splitComma "a1,a2,a3").take
          (min (splitComma "a1,a2,a3").length (splitComma "Alice").length)).zip
        ((splitComma "Alice").take
          (min (splitComma "a1,a2,a3").length (splitComma "Alice").length))).filterMap
        fun p => if neNA p.2 then some ⟨p.1, p.2⟩ else none) ∧
    c4doc.actors.length ≤
      min (splitComma "a1,a2,a3").length (splitComma "Alice").length :=
  actors_truncated_on_mismatch c4row_cex (load_writers_names []) c4doc
    "a1,a2,a3" "Alice" (by decide) rfl rfl (by decide)

/-- Counterexample to claim C4 as stated: the mismatched row transforms
successfully (the code raises no `MalformedActorList`) and its actors list is
the silent truncation pairing `a1` with `Alice`. -/
theorem actors_truncation_cex :
    (transform_row c4row_cex (load_writers_names [])).map (fun d => d.actors) =
      .ok [⟨"a1", "Alice"⟩] := by decide

/-- The bulk query holds two lines per document. -/
theorem gesq_length : ∀ (records : List MovieDocument) (idx_name : String),
    (get_es_build_query records idx_name).length = 2 * records.length := by
  intro records idx_name
  induction records with
  | nil => rfl
  | cons r rs ih =>
    simp only [get_es_build_query, List.length_cons, ih]
    omega

/-- Even positions of the bulk query carry the action line of the
corresponding document. -/
theorem gesq_get_even : ∀ (records : List MovieDocument) (idx_name : String)
    (k : Nat),
    (get_es_build_query records idx_name).get? (2 * k) =
      (records.get? k).map fun d => actionLine idx_name d.id := by
  intro records idx_name
  induction records with
  | nil => intro k; rfl
  | cons r rs ih =>
    intro k
    cases k with
    | zero => rfl
    | succ k =>
      have h2 : 2 * (k + 1) = 2 * k + 1 + 1 := by omega
      rw [h2]
      simp only [get_es_build_query, List.get?_cons_succ]
      exact ih k

/-- Odd positions of the bulk query carry the serialized body of the
corresponding document. -/
theorem gesq_get_odd : ∀ (records : List MovieDocument) (idx_name : String)
    (k : Nat),
    (get_es_build_query records idx_name).get? (2 * k + 1) =
      (records.get? k).map dumpDoc := by
  intro records idx_name
  induction records with
  | nil => intro k; rfl
  | cons r rs ih =>
    intro k
    cases k with
    | zero => rfl
    | succ k =>
      have h2 : 2 * (k + 1) + 1 = (2 * k + 1) + 1 + 1 := by omega
      rw [h2]
      simp only [get_es_build_query, List.get?_cons_succ]
      exact ih k

/-- Claim C8: the loader's payload is exactly two lines per document in
submission order — for the `k`-th document an action line naming the target
collection and carrying the document's id, then its serialized JSON body —
and the whole payload is the single newline-joined request string. -/
theorem bulk_query_shape (records : List MovieDocument) (idx_name : String)
    (k : Nat) :
    (get_es_build_query records idx_name).length = 2 * records.length ∧
    (get_es_build_query records idx_name).get? (2 * k) =
      ((records.get? k).map fun d => actionLine idx_name d.id) ∧
    (get_es_build_query records idx_name).get? (2 * k + 1) =
      (records.get? k).map dumpDoc ∧
    bulk_payload records idx_name =
      String.intercalate "\n" (get_es_build_query records idx_name) ++ "\n" :=
  ⟨gesq_length records idx_name, gesq_get_even records idx_name k,
    gesq_get_odd records idx_name k, rfl⟩

/-- Claim C9: a sentinel rating becomes `null`; a rating that parses as a
decimal numeral is passed through as exactly the parsed value. -/
theorem rating_sentinel_or_parsed (row : SourceRow)
    (wd : List (String × Writer)) (d : MovieDocument)
    (h : transform_row row wd = .ok d) :
    (row.imdb_rating = NA → d.imdb_rating = none) ∧
    (∀ v, parseFloat row.imdb_rating = some v → d.imdb_rating = some v) := by
  obtain ⟨mw, rat, h1, h2, hd⟩ := transform_row_ok_elim h
  subst hd
  constructor
  · intro hna
    show rat = none
    unfold ratingOf at h2
    rw [if_pos hna] at h2
    cases h2
    rfl
  · intro v hv
    show rat = some v
    by_cases hna : row.imdb_rating = NA
    · rw [hna] at hv
      have hparse : parseFloat NA = none := by decide
      rw [hparse] at hv
      cases hv
    · unfold ratingOf at h2
      rw [if_neg hna] at h2
      simp only [hv] at h2
      cases h2
      rfl

/-- Concrete instances of claim C9's theorem: `"7.25"` parses to `725/10^2`
and a sentinel rating becomes `null`. -/
theorem rating_sentinel_or_parsed_witness :
    c9doc.imdb_rating = some ⟨725, 2⟩ ∧ c9doc_na.imdb_rating = none :=
  ⟨(rating_sentinel_or_parsed c9row [] c9doc (by decide)).2 ⟨725, 2⟩ (by decide),
    (rating_sentinel_or_parsed c9row_na [] c9doc_na (by decide)).1 rfl⟩

/-- Splitting a character list never yields the empty list of pieces. -/
theorem splitOnCh_ne_nil (c : Char) : ∀ (l : List Char), splitOnCh c l ≠ [] := by
  intro l
  induction l with
  | nil => simp [splitOnCh]
  | cons x xs ih =>
    by_cases hx : x = c
    · simp [splitOnCh, hx]
    · simp only [splitOnCh, if_neg hx]
      cases h : splitOnCh c xs with
      | nil => simp
      | cons p ps => simp

/-- Claim C10: the output genre is always a non-empty list, and an empty
genre string yields the one-element list holding the empty string. -/
theorem genre_always_nonempty (row : SourceRow) (wd : List (String × Writer))
    (d : MovieDocument) (h : transform_row row wd = .ok d) :
    d.genre ≠ [] ∧ (row.genre = "" → d.genre = [""]) := by
  obtain ⟨mw, rat, h1, h2, hd⟩ := transform_row_ok_elim h
  subst hd
  constructor
  · show splitComma (removeSpaces row.genre) ≠ []
    unfold splitComma
    simp only [ne_eq, List.map_eq_nil_iff]
    exact splitOnCh_ne_nil ',' _
  · intro hg
    show splitComma (removeSpaces row.genre) = [""]
    rw [hg]
    decide

/-- Concrete instance of claim C10's theorem on the empty genre string. -/
theorem genre_always_nonempty_witness :
    c10doc.genre ≠ [] ∧ c10doc.genre = [""] :=
  have t := genre_always_nonempty c10row [] c10doc (by decide)
  ⟨t.1, t.2 rfl⟩

/-- The run loop propagates the first row-level exception: all rows before
the failing one transform, the failing row's error escapes, and the loop
result is that error. -/
theorem transform_all_append_error (wd : List (String × Writer)) :
    ∀ (rows1 : List SourceRow) (r : SourceRow) (rows2 : List SourceRow)
      (e : PyError),
      (∀ r2 ∈ rows1, (transform_row r2 wd).isOk = true) →
      transform_row r wd = .error e →
      transform_all wd (rows1 ++ r :: rows2) = .error e := by
  intro rows1
  induction rows1 with
  | nil =>
    intro r rows2 e _ h2
    simp only [List.nil_append, transform_all, h2]
  | cons r0 t ih =>
    intro r rows2 e h1 h2
    have h0 : (transform_row r0 wd).isOk = true := h1 r0 (List.mem_cons_self _ _)
    cases hr0 : transform_row r0 wd with
    | error e0 =>
      rw [hr0] at h0
      simp [Except.isOk, Except.toBool] at h0
    | ok d0 =>
      simp only [List.cons_append, transform_all, hr0, List.append_eq]
      rw [ih r rows2 e (fun r2 hr2 => h1 r2 (List.mem_cons_of_mem _ hr2)) h2]

/-- Claim C1 (amended): a row-level transformation error is not caught — a
row whose writers reference an id absent from the directory (or whose rating
fails to parse) raises an exception that propagates out of the run; the rows
after it are not transformed, nothing is submitted, and no skip is recorded. -/
theorem run_aborts_on_row_error (rows1 : List SourceRow) (r : SourceRow)
    (rows2 : List SourceRow) (wrows : List Writer) (idx_name : String)
    (response : List BulkItem) (e : PyError)
    (h1 : ∀ r2 ∈ rows1, (transform_row r2 (load_writers_names wrows)).isOk = true)
    (h2 : transform_row r (load_writers_names wrows) = .error e) :
    ETL.load (rows1 ++ r :: rows2) wrows idx_name response = .error e := by
  unfold ETL.load
  rw [transform_all_append_error (load_writers_names wrows) rows1 r rows2 e h1 h2]

/-- Concrete instance of claim C1's amended theorem: after one good row, the
row referencing the absent writer `w9` aborts the whole run with its
`KeyError`. -/
theorem run_aborts_on_row_error_witness :
    ETL.load ([c1row_good] ++ c1row_bad :: []) c1wrows "movies" [] =
      .error (.keyError "w9") :=
  run_aborts_on_row_error [c1row_good] c1row_bad [] c1wrows "movies" []
    (.keyError "w9") (by decide) (by decide)

/-- Counterexample to claim C1 as stated: with the unresolved reference `w9`
in the first row, the whole run evaluates to the uncaught `KeyError` — the
remaining row is never transformed and nothing is loaded or recorded, rather
than the offending row being skipped and the run continuing. -/
theorem run_abort_cex :
    ETL.load [c1row_bad, c1row_good] c1wrows "movies" [] =
      .error (.keyError "w9") := by decide

/-- Claim C5 (amended): `load_to_es` submits the single newline-delimited
payload but returns `None` — it builds no `LoadReport`, records no
`DocumentLoadFailure`, and its outcome is independent of the per-item
results of the bulk response. -/
theorem load_returns_no_report (records : List MovieDocument)
    (idx_name : String) (response other : List BulkItem) :
    (load_to_es records idx_name response).2 = none ∧
    (load_to_es records idx_name response).1 = bulk_payload records idx_name ∧
    load_to_es records idx_name response = load_to_es records idx_name other :=
  ⟨rfl, rfl, rfl⟩

/-- Counterexample to claim C5 as stated: even when the bulk response reports
an erroring item, the loader's return value is `None` — no `LoadReport` of
shape `{attempted, succeeded, failures}` is built or returned. -/
theorem load_report_cex :
    (load_to_es [c5doc] "movies" [⟨"tt1", true, "mapper_parsing_exception"⟩]).2
      = none := rfl

/-- Claim C6: the documented scenario row transforms exactly as specified,
with rating `8.5` (the value `85/10^1`), genre split and de-spaced, the
sentinel director and actor name dropped, and the writer resolved. -/
theorem scenario_tt1 :
    transform_row
      { id := "tt1", genre := "Action, Drama", director := "N/A",
        title := "T", plot := "N/A", imdb_rating := "8.5",
        actors_ids := some "a1,a2", actors_names := some "Alice,N/A",
        writers := [⟨"w1"⟩] }
      (load_writers_names [⟨"w1", "Jane Doe"⟩]) =
    .ok
      { id := "tt1", genre := ["Action", "Drama"],
        writers := [⟨"w1", "Jane Doe"⟩], actors := [⟨"a1", "Alice"⟩],
        actors_names := ["Alice"], writers_names := ["Jane Doe"],
        imdb_rating := some ⟨85, 1⟩, title := "T", director := none,
        description := none } ∧
    (FloatVal.mk 85 1).toRat = (17 : ℚ) / 2 := by
  refine ⟨by decide, ?_⟩
  unfold FloatVal.toRat
  norm_num

end Etl
